import Mathlib

/-
Verification of the core of graphql-dog (src/Instrument.js): the resolver
completion-tracking wrapper `decorateField`, the schema instrumentor
`instrumentSchema` with its default resolver and schema-level hook, and the
request lifecycle (`preRequest`, `postRequest`, `newContext`).

The JavaScript source is shallowly embedded:

* Resolver results are a closed inductive `JSValue` covering the shapes the
  wrapper dispatches on: `null`, `undefined`, primitives, single thenables
  (promises, identified by an id), arrays, and "exotic" objects whose `then`
  property access throws (the one way the classification step in the
  source's second try block can itself fail).
* Thrown JS exceptions are `Except JSErr`; `jsTypeError` stands for the
  TypeError raised by property access on `null`/`undefined` and by
  `process.hrtime` applied to a malformed stored value.
* Asynchrony: the wrapper's synchronous phase is a pure function returning a
  `SyncResult` (the value returned/thrown, the record as created, and a
  `ContSpec` describing which continuation was attached). Settlement of
  deferred values is an environment `SettleEnv` giving each promise id a
  settle time and outcome; `reportAt` gives the record's state at any time,
  with `contFire` encoding promise semantics (a single `.then`/`.catch`
  fires at the settle time; `Promise.all` resolves at the last fulfilment
  when all fulfil and rejects at the first rejection otherwise).
* `process.hrtime(start)` readings are natural-number offsets; a context
  whose stored `startHrTime` is `none` models a corrupted value on which
  `process.hrtime` throws (this read happens outside every try block in the
  source).
-/

set_option maxHeartbeats 1000000

namespace GraphqlDog

/-- Identifier of a JavaScript exception value (kept abstract as a number). -/
abbrev JSErr := Nat

/-- The TypeError raised by property access on `null`/`undefined` and by
`process.hrtime` on a malformed argument. -/
def jsTypeError : JSErr := 0

/-- The shapes of values a resolver can produce, as dispatched on by
`decorateField` in src/Instrument.js lines 157-196: `null`, `undefined`,
primitives (string/number/boolean, truthiness irrelevant to the wrapper),
a single thenable (`typeof result.then === 'function'`), an array, or an
exotic object whose `then` property access throws `e` (the way the
classification step itself can fail). -/
inductive JSValue where
  | nullV : JSValue
  | undefinedV : JSValue
  | prim (n : Nat) : JSValue
  | deferred (d : Nat) : JSValue
  | arr (elems : List JSValue) : JSValue
  | exotic (e : JSErr) : JSValue

/-- Static field identity passed to `decorateField` by `instrumentSchema`:
`{ typeName, fieldName }`. -/
structure FieldInfo where
  typeName : String
  fieldName : String
  deriving Repr, DecidableEq

/-- The per-invocation record `resolverReport` built at src/Instrument.js
lines 118-123 and mutated by `finishRun` and the error paths. Fields that
the source leaves absent until assigned are `Option`/`Bool` with `none`/
`false` as the unset state. -/
structure ResolverReport where
  startOffset : Nat
  fieldInfo : FieldInfo
  resolverInfo : Nat
  endOffset : Option Nat := none
  error : Bool := false
  resultNull : Bool := false
  resultUndefined : Bool := false
  deriving Repr, DecidableEq

/-- The per-request context created by `preRequest` (src/Instrument.js lines
27-35) and consumed by the wrapper. `startHrTime = none` models a corrupted
stored value on which `process.hrtime` throws. `durationHrTime`,
`endWallTime` are set by `postRequest`; `agent` by `newContext`. -/
structure DatadogContext where
  startWallTime : Nat
  startHrTime : Option Nat
  resolverCalls : List ResolverReport
  durationHrTime : Option Nat := none
  endWallTime : Option Nat := none
  agent : Option Nat := none
  deriving Repr, DecidableEq

/-- The graphql execution context argument `ctx`; the wrapper reads
`ctx && ctx.datadogContext`. -/
structure CtxObj where
  datadogContext : Option DatadogContext := none
  deriving Repr, DecidableEq

/-- Which completion continuation the wrapper attached before returning:
none (the record finished, or was abandoned, synchronously), a `.then`/
`.catch` pair on a single promise, or a `Promise.all` over the promises
found in an array result. -/
inductive ContSpec where
  | contNone : ContSpec
  | contSingle (d : Nat) : ContSpec
  | contAll (ds : List Nat) : ContSpec
  deriving Repr, DecidableEq

/-- Everything observable when the wrapper's synchronous phase ends: the
value returned (or exception thrown) to the caller, the record as it stands
at that instant (`none` when no record was created), whether the record was
pushed onto `datadogContext.resolverCalls`, and the attached continuation. -/
structure SyncResult where
  outcome : Except JSErr JSValue
  report : Option ResolverReport
  appended : Bool
  cont : ContSpec

/-- The loop at src/Instrument.js lines 177-182: walk the array, keep the
elements that are truthy and thenable (`value && typeof value.then ===
'function'`). `null`/`undefined` are falsy and skipped without a property
access; an exotic element throws when its `then` property is read. -/
def collectThenables : List JSValue → Except JSErr (List Nat)
  | [] => .ok []
  | .nullV :: rest => collectThenables rest
  | .undefinedV :: rest => collectThenables rest
  | .exotic e :: _ => .error e
  | .deferred d :: rest => (collectThenables rest).map (fun ds => d :: ds)
  | .prim _ :: rest => collectThenables rest
  | .arr _ :: rest => collectThenables rest

/-- Outcome of the shape dispatch in the second try block. -/
inductive Shape where
  | isNull : Shape
  | isUndefined : Shape
  | plain : Shape
  | single (d : Nat) : Shape
  | allOf (ds : List Nat) : Shape
  deriving Repr, DecidableEq

/-- The chain of tests at src/Instrument.js lines 158-196: `result === null`,
`typeof result === 'undefined'`, `typeof result.then === 'function'`,
`Array.isArray(result)` (promises collected, `promises.length > 0` checked),
else primitive. Exotic values throw when `result.then` is read. -/
def classifyResult : JSValue → Except JSErr Shape
  | .nullV => .ok .isNull
  | .undefinedV => .ok .isUndefined
  | .exotic e => .error e
  | .deferred d => .ok (.single d)
  | .arr vs => (collectThenables vs).map (fun ds => if ds.isEmpty then .plain else .allOf ds)
  | .prim _ => .ok .plain

/-- The decorated resolver produced by `decorateField` (src/Instrument.js
lines 103-206), synchronous phase. `fn` is the behavior of the wrapped
resolver at this invocation (its return value or synchronously thrown
exception; the parent/args arguments are folded into it). `now` is the
current monotonic clock reading, so `process.hrtime(start)` reads as
`now - start`. Paths, in source order: missing context forwards to `fn`
untouched; a context with a corrupted `startHrTime` makes the clock read at
line 119 throw outside every try block; otherwise the record is created and
pushed before `fn` runs, a synchronous throw is recorded and re-raised, and
the result is classified inside the safety-belt try whose catch returns the
already-computed result. -/
def decorateField (fn : Except JSErr JSValue) (fieldInfo : FieldInfo)
    (ctx : Option CtxObj) (resolverInfo : Nat) (now : Nat) : SyncResult :=
  match ctx.bind CtxObj.datadogContext with
  | none =>
      { outcome := fn, report := none, appended := false, cont := .contNone }
  | some c =>
    match c.startHrTime with
    | none =>
        { outcome := .error jsTypeError, report := none, appended := false,
          cont := .contNone }
    | some s =>
      let report0 : ResolverReport :=
        { startOffset := now - s, fieldInfo := fieldInfo, resolverInfo := resolverInfo }
      match fn with
      | .error e =>
          { outcome := .error e,
            report := some { report0 with error := true, endOffset := some (now - s) },
            appended := true, cont := .contNone }
      | .ok result =>
        match classifyResult result with
        | .error _ =>
            { outcome := .ok result, report := some report0, appended := true,
              cont := .contNone }
        | .ok .isNull =>
            { outcome := .ok result,
              report := some { report0 with resultNull := true, endOffset := some (now - s) },
              appended := true, cont := .contNone }
        | .ok .isUndefined =>
            { outcome := .ok result,
              report := some { report0 with resultUndefined := true, endOffset := some (now - s) },
              appended := true, cont := .contNone }
        | .ok .plain =>
            { outcome := .ok result,
              report := some { report0 with endOffset := some (now - s) },
              appended := true, cont := .contNone }
        | .ok (.single d) =>
            { outcome := .ok result, report := some report0, appended := true,
              cont := .contSingle d }
        | .ok (.allOf ds) =>
            { outcome := .ok result, report := some report0, appended := true,
              cont := .contAll ds }

/-- A settlement schedule for deferred values: each promise id settles at
`time d`, fulfilling when `ok d` and rejecting otherwise. -/
structure SettleEnv where
  time : Nat → Nat
  ok : Nat → Bool

/-- Maximum of a list of times (used for the fulfilment time of
`Promise.all`: it resolves when the last input fulfils). -/
def listMax : List Nat → Nat
  | [] => 0
  | x :: xs => Nat.max x (listMax xs)

/-- Minimum of a nonempty list of times (used for the rejection time of
`Promise.all`: it rejects at the first rejection). -/
def listMin : List Nat → Nat
  | [] => 0
  | [x] => x
  | x :: y :: xs => Nat.min x (listMin (y :: xs))

/-- When, and how, an attached continuation fires: `some (t, isErr)` means the
success or failure handler runs at time `t`, with `isErr` true on the failure
path. A single `.then`/`.catch` fires at the promise's settle time;
`Promise.all` resolves at the last fulfilment when every input fulfils and
rejects at the first rejection otherwise. -/
def contFire (env : SettleEnv) : ContSpec → Option (Nat × Bool)
  | .contNone => none
  | .contSingle d => some (env.time d, !env.ok d)
  | .contAll ds =>
      let rejs := ds.filter (fun d => !env.ok d)
      if rejs.isEmpty then some (listMax (ds.map env.time), false)
      else some (listMin (rejs.map env.time), true)

/-- The state of a record at time `t`, given the continuation attached to it:
once the continuation has fired, `finishRun` has stamped `endOffset` with the
clock offset at firing (and the failure handler has set `error`). `s` is the
context's `startHrTime`. -/
def applyCont (env : SettleEnv) (cont : ContSpec) (s t : Nat)
    (r : ResolverReport) : ResolverReport :=
  match contFire env cont with
  | none => r
  | some (ft, isErr) =>
      if ft ≤ t then { r with endOffset := some (ft - s), error := r.error || isErr }
      else r

/-- The record created by one wrapper invocation, as it stands at time `t`
(`none` when the invocation created no record). -/
def reportAt (env : SettleEnv) (s : Nat) (sr : SyncResult) (t : Nat) :
    Option ResolverReport :=
  sr.report.map (applyCont env sr.cont s t)

/-- The context's `resolverCalls` sequence at time `t` after one wrapper
invocation against context `c`: the push at src/Instrument.js line 126 stores
a reference, so the appended entry is the record in its state at `t`. -/
def callsAt (env : SettleEnv) (c : DatadogContext) (s : Nat) (sr : SyncResult)
    (t : Nat) : List ResolverReport :=
  c.resolverCalls ++ (reportAt env s sr t).toList

/-- What a consumer of the wrapper's returned value observes: consuming a
deferred value observes its own settlement outcome; concrete values succeed. -/
def consumeOk (env : SettleEnv) : JSValue → Bool
  | .deferred d => env.ok d
  | _ => true

/-- True of values that are not exotic (reading `.then` does not throw). -/
def notExotic : JSValue → Bool
  | .exotic _ => false
  | _ => true

/-- True of results whose classification cannot itself throw: not exotic, and
if an array, free of exotic elements at the top level (only top-level
elements have `.then` read). -/
def noExoticTop : JSValue → Bool
  | .exotic _ => false
  | .arr vs => vs.all notExotic
  | v => notExotic v

/-- True of resolver behaviors on which the wrapper's bookkeeping cannot
throw during classification: a synchronous throw, or a well-behaved value. -/
def goodResult : Except JSErr JSValue → Bool
  | .error _ => true
  | .ok v => noExoticTop v

/-- A field's resolution function as manipulated by `instrumentSchema`:
either an explicit resolver of the user's (identified by a number), the
installed `defaultResolveFn`, or a `decorateField` wrapping of another
resolver with its static field identity. -/
inductive Resolver where
  | base (id : Nat) : Resolver
  | defaultFn : Resolver
  | decorated (inner : Resolver) (info : FieldInfo) : Resolver
  deriving Repr, DecidableEq

/-- One (type, field, resolve) triple as enumerated by `forEachField`. -/
structure SchemaField where
  typeName : String
  fieldName : String
  resolve : Option Resolver
  deriving Repr, DecidableEq

/-- An executable schema, reduced to what `instrumentSchema` touches: the
`_opticsInstrumented` marker and the fields `forEachField` enumerates. -/
structure Schema where
  _opticsInstrumented : Bool := false
  fields : List SchemaField
  deriving Repr, DecidableEq

/-- The body of the `forEachField` callback (src/Instrument.js lines
247-260): install `defaultResolveFn` where no resolver exists, then wrap
with `decorateField` and the field's `{ typeName, fieldName }`. -/
def instrumentField (f : SchemaField) : SchemaField :=
  let r0 := match f.resolve with
    | none => Resolver.defaultFn
    | some r => r
  { f with resolve := some (.decorated r0 ⟨f.typeName, f.fieldName⟩) }

/-- `instrumentSchema` (src/Instrument.js lines 240-272): return the schema
unchanged when `_opticsInstrumented` is already set, otherwise set the
marker and rewrite every field. (The schema-level hook it also installs is
modeled separately as `schemaLevelResolveFn`.) -/
def instrumentSchema (schema : Schema) : Schema :=
  if schema._opticsInstrumented then schema
  else { _opticsInstrumented := true, fields := schema.fields.map instrumentField }

/-- Number of `decorateField` layers around a resolver. -/
def wrapLayers : Resolver → Nat
  | .decorated inner _ => wrapLayers inner + 1
  | _ => 0

/-- The schema-level resolve function installed at src/Instrument.js lines
263-269. It reads `ctx.datadogContext` with no `ctx &&` guard, so an absent
context argument raises a TypeError; otherwise it calls `reportRequestStart`
exactly when the context carries a datadog context, and returns the root
value unchanged. The Bool in the result records whether `reportRequestStart`
(the traceStarted signal) was invoked. -/
def schemaLevelResolveFn (root : JSValue) (ctx : Option CtxObj) :
    Except JSErr (JSValue × Bool) :=
  match ctx with
  | none => .error jsTypeError
  | some c => .ok (root, c.datadogContext.isSome)

/-- A property of a JS object: a plain value, or a callable whose invocation
with `(args, context)` (both kept as numbers) yields a value. -/
inductive Property where
  | value (v : JSValue) : Property
  | callable (f : Nat → Nat → JSValue) : Property

/-- The parent ("source") values `defaultResolveFn` dispatches on via
`typeof`: `null` has `typeof 'object'` yet throws on property access;
`undefined` and primitives fail the `typeof` test; objects and functions
carry a property table. -/
inductive SourceVal where
  | nullSrc : SourceVal
  | undefinedSrc : SourceVal
  | primSrc (n : Nat) : SourceVal
  | objSrc (props : List (String × Property)) : SourceVal
  | funcSrc (props : List (String × Property)) : SourceVal

/-- Property lookup on an object; a missing property reads as none
(JS: `undefined`). -/
def lookupProp (props : List (String × Property)) (name : String) : Option Property :=
  match props.find? (fun p => p.1 == name) with
  | some p => some p.2
  | none => none

/-- `source[fieldName]` followed by the callable test, as in
`defaultResolveFn`: invoke a callable property with `(args, context)`,
return a plain property as-is, read a missing property as `undefined`. -/
def readProp (props : List (String × Property)) (args ctx : Nat)
    (name : String) : JSValue :=
  match lookupProp props name with
  | none => .undefinedV
  | some (.value v) => v
  | some (.callable f) => f args ctx

/-- `defaultResolveFn` (src/Instrument.js lines 220-230): when
`typeof source` is 'object' or 'function', read the named property, calling
it with `(args, context)` if callable; otherwise return `undefined`. `null`
passes the `typeof` test (JS: `typeof null === 'object'`) and then throws a
TypeError on the property access. -/
def defaultResolveFn (source : SourceVal) (args ctx : Nat) (fieldName : String) :
    Except JSErr JSValue :=
  match source with
  | .nullSrc => .error jsTypeError
  | .objSrc props => .ok (readProp props args ctx fieldName)
  | .funcSrc props => .ok (readProp props args ctx fieldName)
  | .undefinedSrc => .ok .undefinedV
  | .primSrc _ => .ok .undefinedV

/-- Modelled from the spec (claim C9's wording, for comparison with
`defaultResolveFn`): read the same-named property from the parent value,
invoking callables with `(arguments, context)`; and for any parent value on
which property access is not acceptable — `null`, `undefined`, primitives —
produce `undefined` rather than failing. -/
def defaultResolveClaimed (source : SourceVal) (args ctx : Nat)
    (fieldName : String) : Except JSErr JSValue :=
  match source with
  | .objSrc props => .ok (readProp props args ctx fieldName)
  | .funcSrc props => .ok (readProp props args ctx fieldName)
  | _ => .ok .undefinedV

/-- The inbound request object, reduced to the one private slot the
lifecycle code uses. -/
structure Req where
  _datadogContext : Option DatadogContext := none
  deriving Repr, DecidableEq

/-- `preRequest` (src/Instrument.js lines 27-35): build a fresh context with
the current wall and monotonic clock readings and an empty `resolverCalls`,
and attach it to the request (overwriting any prior attachment). -/
def preRequest (wall hr : Nat) (req : Req) : Req :=
  let c : DatadogContext :=
    { startWallTime := wall, startHrTime := some hr, resolverCalls := [] }
  { req with _datadogContext := some c }

/-- `postRequest` (src/Instrument.js lines 37-56): when a context is
attached, stamp `durationHrTime` and `endWallTime` and schedule
`reportRequestEnd` via `setImmediate` (the Bool in the result); when no
context is attached, do nothing at all. A corrupted `startHrTime` makes the
`process.hrtime` call throw. -/
def postRequest (wall hr : Nat) (req : Req) : Except JSErr (Req × Bool) :=
  match req._datadogContext with
  | none => .ok (req, false)
  | some c =>
    match c.startHrTime with
    | none => .error jsTypeError
    | some s =>
        .ok (⟨some { c with durationHrTime := some (hr - s), endWallTime := some wall }⟩,
             true)

/-- `newContext` (src/Instrument.js lines 283-309): fetch the attached
context, re-running `preRequest` first when it is missing; stamp the agent
onto it; return it (the request now holds the same stamped context). -/
def newContext (wall hr agent : Nat) (req : Req) : Req × DatadogContext :=
  let c0 : DatadogContext := match req._datadogContext with
    | none => { startWallTime := wall, startHrTime := some hr, resolverCalls := [] }
    | some c => c
  let c1 := { c0 with agent := some agent }
  (⟨some c1⟩, c1)

/-- A live execution context: a ctx argument carrying a datadog context with
a valid stored `startHrTime` reading `s` and prior calls `calls`. -/
def mkDdCtx (w s : Nat) (calls : List ResolverReport) : DatadogContext :=
  { startWallTime := w, startHrTime := some s, resolverCalls := calls }

/-- The ctx argument wrapping `mkDdCtx w s calls`. -/
def mkCtx (w s : Nat) (calls : List ResolverReport) : Option CtxObj :=
  some ⟨some (mkDdCtx w s calls)⟩

/-- Walking an array free of exotic elements collects its promises without
throwing. -/
theorem collectThenables_ok_of_all_notExotic (vs : List JSValue)
    (h : vs.all notExotic = true) : ∃ ds, collectThenables vs = .ok ds := by
  induction vs with
  | nil => exact ⟨[], rfl⟩
  | cons v rest ih =>
      rw [List.all_cons, Bool.and_eq_true] at h
      obtain ⟨ds, hds⟩ := ih h.2
      cases v with
      | nullV => exact ⟨ds, hds⟩
      | undefinedV => exact ⟨ds, hds⟩
      | prim n => exact ⟨ds, hds⟩
      | arr es => exact ⟨ds, hds⟩
      | deferred d => exact ⟨d :: ds, by simp [collectThenables, hds, Except.map]⟩
      | exotic e => simp [notExotic] at h

/-- A `Promise.all` continuation always fires: at the last fulfilment or the
first rejection. -/
theorem contFire_contAll_isSome (env : SettleEnv) (ds : List Nat) :
    ∃ ft isErr, contFire env (.contAll ds) = some (ft, isErr) := by
  unfold contFire
  by_cases h : (ds.filter (fun d => !env.ok d)).isEmpty
  · exact ⟨listMax (ds.map env.time), false, by simp [h]⟩
  · exact ⟨listMin ((ds.filter (fun d => !env.ok d)).map env.time), true, by simp [h]⟩

/-- Unfolding `applyCont` once the firing of the continuation is known. -/
theorem applyCont_fired (env : SettleEnv) (cont : ContSpec) (s t ft : Nat)
    (isErr : Bool) (r : ResolverReport)
    (hf : contFire env cont = some (ft, isErr)) :
    applyCont env cont s t r =
      if ft ≤ t then { r with endOffset := some (ft - s), error := r.error || isErr }
      else r := by
  unfold applyCont
  rw [hf]

/-- Exactly-once settlement, generically: a record created with either a
synchronously finished continuation-free state, or an unset endOffset plus a
continuation that fires, reaches a single final state with endOffset set and
never changes once a set endOffset is observed. -/
theorem reportAt_once (env : SettleEnv) (s : Nat) (sr : SyncResult)
    (r0 : ResolverReport) (hrep : sr.report = some r0)
    (h : (contFire env sr.cont = none ∧ r0.endOffset.isSome = true) ∨
         (r0.endOffset = none ∧ ∃ ft isErr, contFire env sr.cont = some (ft, isErr))) :
    (∃ ft r, (∀ t, ft ≤ t → reportAt env s sr t = some r) ∧ r.endOffset.isSome = true) ∧
    (∀ t u r, t ≤ u → reportAt env s sr t = some r → r.endOffset.isSome = true →
        reportAt env s sr u = some r) := by
  rcases h with ⟨hc, hset⟩ | ⟨hnone, ft, isErr, hf⟩
  · have key : ∀ t, reportAt env s sr t = some r0 := by
      intro t
      simp [reportAt, hrep, applyCont, hc]
    constructor
    · exact ⟨0, r0, fun t _ => key t, hset⟩
    · intro t u r _ hr _
      rw [key t] at hr
      rw [key u]
      exact hr
  · have key : ∀ t, reportAt env s sr t =
        some (if ft ≤ t
              then { r0 with endOffset := some (ft - s), error := r0.error || isErr }
              else r0) := by
      intro t
      simp [reportAt, hrep, applyCont_fired env sr.cont s t ft isErr r0 hf]
    constructor
    · refine ⟨ft, { r0 with endOffset := some (ft - s), error := r0.error || isErr },
        fun t ht => ?_, rfl⟩
      rw [key t, if_pos ht]
    · intro t u r htu hr hset
      rcases le_or_lt ft t with hle | hlt
      · rw [key t, if_pos hle] at hr
        rw [key u, if_pos (le_trans hle htu)]
        exact hr
      · rw [key t, if_neg (Nat.not_le.mpr hlt)] at hr
        injection hr with hr0
        rw [← hr0, hnone] at hset
        exact absurd hset (by simp)

/-- C6: a decorateField-wrapped resolver whose execution context argument is
absent, or carries no datadog context, creates no record, appends nothing,
attaches no continuation, and behaves exactly as the unwrapped function: its
outcome — returned value or thrown error — is forwarded unchanged
(src/Instrument.js lines 106-116). -/
theorem c6_no_context_passthrough (fn : Except JSErr JSValue) (fi : FieldInfo)
    (ctx : Option CtxObj) (ri now : Nat)
    (h : ctx.bind CtxObj.datadogContext = none) :
    decorateField fn fi ctx ri now =
      { outcome := fn, report := none, appended := false, cont := .contNone } := by
  unfold decorateField
  rw [h]

/-- Witness for C6: an absent context with a returning resolver, and a
context without a datadog context with a throwing resolver. -/
theorem c6_no_context_passthrough_witness :
    decorateField (.ok (.prim 5)) ⟨"T", "f"⟩ none 0 3 =
      { outcome := .ok (.prim 5), report := none, appended := false, cont := .contNone } ∧
    decorateField (.error 7) ⟨"T", "f"⟩ (some ⟨none⟩) 0 3 =
      { outcome := .error 7, report := none, appended := false, cont := .contNone } :=
  ⟨c6_no_context_passthrough (.ok (.prim 5)) ⟨"T", "f"⟩ none 0 3 rfl,
   c6_no_context_passthrough (.error 7) ⟨"T", "f"⟩ (some ⟨none⟩) 0 3 rfl⟩

/-- C4: when the wrapped function throws synchronously under a live context,
the record had already been appended to the calls sequence (the push at
src/Instrument.js line 126 precedes the invocation at line 138), the record
carries error = true with endOffset set, and the identical error value is
re-raised to the caller (lines 137-145). -/
theorem c4_sync_throw_recorded (e : JSErr) (fi : FieldInfo)
    (w s ri now : Nat) (calls : List ResolverReport) (env : SettleEnv) (t : Nat) :
    decorateField (.error e) fi (mkCtx w s calls) ri now =
      { outcome := .error e,
        report := some { startOffset := now - s, fieldInfo := fi, resolverInfo := ri,
                         error := true, endOffset := some (now - s) },
        appended := true, cont := .contNone } ∧
    callsAt env (mkDdCtx w s calls) s
        (decorateField (.error e) fi (mkCtx w s calls) ri now) t =
      calls ++ [{ startOffset := now - s, fieldInfo := fi, resolverInfo := ri,
                  error := true, endOffset := some (now - s) }] :=
  ⟨rfl, rfl⟩

/-- C5 counterexample: a context whose stored startHrTime is corrupted makes
the clock read at src/Instrument.js line 119 — record creation, which sits
outside both try blocks — throw, and the wrapper raises a TypeError to the
caller even though the wrapped function returned a value. An
instrumentation-internal bookkeeping fault thus does propagate, contrary to
the claim. -/
theorem c5_counterexample :
    (decorateField (.ok (.prim 7)) ⟨"T", "f"⟩
        (some ⟨some { startWallTime := 0, startHrTime := none, resolverCalls := [] }⟩)
        0 1).outcome = .error jsTypeError ∧
    (decorateField (.ok (.prim 7)) ⟨"T", "f"⟩
        (some ⟨some { startWallTime := 0, startHrTime := none, resolverCalls := [] }⟩)
        0 1).outcome ≠ .ok (.prim 7) :=
  ⟨rfl, fun h => Except.noConfusion h⟩

/-- C5 amended: faults arising in result classification and continuation
attachment (step 4, the second try block) are caught and discarded and the
wrapper falls back to the already-computed result — whenever the wrapped
function returns under a live context the wrapper returns that very value,
and a result whose classification throws leaves the record exactly as
created, with endOffset unset; faults in record creation (step 2) are not
caught and propagate (see the counterexample). -/
theorem c5_step4_faults_contained (v : JSValue) (fi : FieldInfo)
    (w s ri now : Nat) (calls : List ResolverReport) :
    (decorateField (.ok v) fi (mkCtx w s calls) ri now).outcome = .ok v ∧
    (∀ e2, classifyResult v = .error e2 →
      decorateField (.ok v) fi (mkCtx w s calls) ri now =
        { outcome := .ok v,
          report := some { startOffset := now - s, fieldInfo := fi, resolverInfo := ri },
          appended := true, cont := .contNone }) := by
  constructor
  · cases hcl : classifyResult v with
    | error e => simp [decorateField, mkCtx, mkDdCtx, hcl]
    | ok sh => cases sh <;> simp [decorateField, mkCtx, mkDdCtx, hcl]
  · intro e2 hcl
    simp [decorateField, mkCtx, mkDdCtx, hcl]

/-- Witness for C5 amended: an exotic result (its `then` property access
throws) is returned unchanged and the record is left as created. -/
theorem c5_step4_faults_contained_witness :
    classifyResult (.exotic 9) = .error 9 ∧
    (decorateField (.ok (.exotic 9)) ⟨"T", "f"⟩ (mkCtx 0 0 []) 0 1).outcome
      = .ok (.exotic 9) ∧
    decorateField (.ok (.exotic 9)) ⟨"T", "f"⟩ (mkCtx 0 0 []) 0 1 =
      { outcome := .ok (.exotic 9),
        report := some { startOffset := 1, fieldInfo := ⟨"T", "f"⟩, resolverInfo := 0 },
        appended := true, cont := .contNone } :=
  ⟨rfl,
   (c5_step4_faults_contained (.exotic 9) ⟨"T", "f"⟩ 0 0 0 1 []).1,
   (c5_step4_faults_contained (.exotic 9) ⟨"T", "f"⟩ 0 0 0 1 []).2 9 rfl⟩

/-- C8 counterexample: invoked with an absent context argument, the
schema-level hook reads `ctx.datadogContext` with no `ctx &&` guard
(src/Instrument.js line 264) and raises a TypeError, contradicting the
claim that it "performs no action and raises nothing" whenever no datadog
context is carried. -/
theorem c8_counterexample :
    schemaLevelResolveFn (.prim 3) none = .error jsTypeError :=
  rfl

/-- C8 amended: when the context argument is present, the hook returns the
root value it received unchanged and signals traceStarted
(reportRequestStart) exactly when the context carries a datadog context; an
absent context argument instead raises a TypeError. -/
theorem c8_root_hook_amended (root : JSValue) (c : CtxObj) :
    schemaLevelResolveFn root (some c) = .ok (root, c.datadogContext.isSome) ∧
    schemaLevelResolveFn root none = .error jsTypeError :=
  ⟨rfl, rfl⟩

/-- C9 counterexample: the claim requires every parent value on which
property access is not acceptable to yield `undefined` rather than fail, but
`null` — for which `typeof null === 'object'` — passes the guard in
`defaultResolveFn` and the property access throws a TypeError, where the
claim's description yields `undefined`. -/
theorem c9_counterexample :
    defaultResolveFn .nullSrc 0 0 "name" = .error jsTypeError ∧
    defaultResolveClaimed .nullSrc 0 0 "name" = .ok .undefinedV :=
  ⟨rfl, rfl⟩

/-- C9 amended: on every parent value other than `null`, the installed
default resolver behaves exactly as the claim describes — read the
same-named property, invoke a callable property with (arguments, context),
return a plain property, and produce `undefined` on values without
acceptable property access; `null` instead raises a TypeError. -/
theorem c9_defaultResolveFn_amended (src : SourceVal) (args ctx : Nat)
    (name : String) (h : src ≠ .nullSrc) :
    defaultResolveFn src args ctx name = defaultResolveClaimed src args ctx name := by
  cases src with
  | nullSrc => exact absurd rfl h
  | undefinedSrc => rfl
  | primSrc n => rfl
  | objSrc props => rfl
  | funcSrc props => rfl

/-- Witness for C9 amended: an object parent with a plain property and one
with a callable property, plus a primitive parent. -/
theorem c9_defaultResolveFn_amended_witness :
    defaultResolveFn (.objSrc [("a", .value (.prim 3))]) 0 0 "a" =
      defaultResolveClaimed (.objSrc [("a", .value (.prim 3))]) 0 0 "a" ∧
    defaultResolveFn (.objSrc [("a", .callable (fun args ctx => .prim (args + ctx)))]) 2 3 "a" =
      defaultResolveClaimed (.objSrc [("a", .callable (fun args ctx => .prim (args + ctx)))]) 2 3 "a" ∧
    defaultResolveFn (.primSrc 4) 0 0 "a" = defaultResolveClaimed (.primSrc 4) 0 0 "a" :=
  ⟨c9_defaultResolveFn_amended (.objSrc [("a", .value (.prim 3))]) 0 0 "a"
      (fun h => SourceVal.noConfusion h),
   c9_defaultResolveFn_amended (.objSrc [("a", .callable (fun args ctx => .prim (args + ctx)))]) 2 3 "a"
      (fun h => SourceVal.noConfusion h),
   c9_defaultResolveFn_amended (.primSrc 4) 0 0 "a"
      (fun h => SourceVal.noConfusion h)⟩

/-- C10 counterexample: `postRequest` on a request with no attached context
does nothing — afterwards the request still carries no context and no
reporting is scheduled — rather than re-running the request-start hook as
the claim states (the `if (context)` guard at src/Instrument.js line 48
simply skips everything). -/
theorem c10_counterexample :
    postRequest 100 100 ⟨none⟩ = .ok (⟨none⟩, false) :=
  rfl

/-- C10 amended: `postRequest` on a request with no attached context is a
no-op (the request is returned with the context still absent and no
reporting scheduled); the recovery the claim describes — re-running the
request-start hook so that late-binding consumers get a usable context —
lives in `newContext`, which builds and attaches a fresh context when none
is present. -/
theorem c10_postRequest_amended (wall hr wall2 hr2 agent : Nat) :
    postRequest wall hr ⟨none⟩ = .ok (⟨none⟩, false) ∧
    (newContext wall2 hr2 agent ⟨none⟩).1._datadogContext =
      some { startWallTime := wall2, startHrTime := some hr2, resolverCalls := [],
             agent := some agent } ∧
    (newContext wall2 hr2 agent ⟨none⟩).2 =
      { startWallTime := wall2, startHrTime := some hr2, resolverCalls := [],
        agent := some agent } :=
  ⟨rfl, rfl, rfl⟩

/-- C7: `instrumentSchema` is idempotent — instrumenting twice equals
instrumenting once, a schema whose marker is already set is returned
unchanged, and on a previously uninstrumented schema whose resolvers are
unwrapped, every field ends up with exactly one decorateField layer around
its original (or installed default) resolver, so the underlying resolver is
invoked once, never twice, per logical field call
(src/Instrument.js lines 240-260). -/
theorem c7_instrumentSchema_idempotent (schema : Schema) :
    instrumentSchema (instrumentSchema schema) = instrumentSchema schema ∧
    (schema._opticsInstrumented = true → instrumentSchema schema = schema) ∧
    (schema._opticsInstrumented = false →
      (∀ f ∈ schema.fields, ∀ r, f.resolve = some r → wrapLayers r = 0) →
      ∀ g ∈ (instrumentSchema schema).fields,
        ∃ r, g.resolve = some r ∧ wrapLayers r = 1) := by
  refine ⟨?_, ?_, ?_⟩
  · by_cases h : schema._opticsInstrumented
    · simp [instrumentSchema, h]
    · simp [instrumentSchema, h]
  · intro h
    simp [instrumentSchema, h]
  · intro h hlayers g hg
    rw [instrumentSchema, if_neg (by simp [h])] at hg
    simp only [List.mem_map] at hg
    obtain ⟨f, hf, hfg⟩ := hg
    cases hres : f.resolve with
    | none =>
        refine ⟨.decorated .defaultFn ⟨f.typeName, f.fieldName⟩, ?_, rfl⟩
        rw [← hfg]
        simp [instrumentField, hres]
    | some r =>
        refine ⟨.decorated r ⟨f.typeName, f.fieldName⟩, ?_, ?_⟩
        · rw [← hfg]
          simp [instrumentField, hres]
        · simp [wrapLayers, hlayers f hf r hres]

/-- Witness for C7: a one-field schema with an unwrapped resolver ends up
with exactly one decoration layer. -/
theorem c7_instrumentSchema_idempotent_witness :
    ∃ r, ({ typeName := "Q", fieldName := "a",
            resolve := some (.decorated (.base 1) ⟨"Q", "a"⟩) } : SchemaField).resolve
          = some r ∧ wrapLayers r = 1 :=
  (c7_instrumentSchema_idempotent
      { _opticsInstrumented := false,
        fields := [{ typeName := "Q", fieldName := "a", resolve := some (.base 1) }] }).2.2
    rfl
    (fun f hf r hr => by
      simp only [List.mem_singleton] at hf
      subst hf
      simp only [Option.some.injEq] at hr
      rw [← hr]
      rfl)
    { typeName := "Q", fieldName := "a", resolve := some (.decorated (.base 1) ⟨"Q", "a"⟩) }
    (by simp [instrumentSchema, instrumentField])

/-- C1: under a live context, a resolver returning a single deferred value
has that same deferred value returned unmodified, with the continuation
attached off the caller-visible path; the record's endOffset is unset when
the wrapper returns and at every instant before the deferred value settles,
and is set from the settle instant on; on rejection the error flag is set
alongside endOffset, and a consumer of the returned value still observes the
original settlement outcome (src/Instrument.js lines 162-172). -/
theorem c1_single_deferred_tracking (d : Nat) (fi : FieldInfo)
    (w s ri now : Nat) (calls : List ResolverReport) (env : SettleEnv) :
    decorateField (.ok (.deferred d)) fi (mkCtx w s calls) ri now =
      { outcome := .ok (.deferred d),
        report := some { startOffset := now - s, fieldInfo := fi, resolverInfo := ri },
        appended := true, cont := .contSingle d } ∧
    (∀ t, t < env.time d →
      reportAt env s (decorateField (.ok (.deferred d)) fi (mkCtx w s calls) ri now) t =
        some { startOffset := now - s, fieldInfo := fi, resolverInfo := ri }) ∧
    (∀ t, env.time d ≤ t →
      reportAt env s (decorateField (.ok (.deferred d)) fi (mkCtx w s calls) ri now) t =
        some { startOffset := now - s, fieldInfo := fi, resolverInfo := ri,
               endOffset := some (env.time d - s), error := !env.ok d }) ∧
    consumeOk env (.deferred d) = env.ok d := by
  refine ⟨rfl, ?_, ?_, rfl⟩
  · intro t ht
    show some (applyCont env (.contSingle d) s t
        { startOffset := now - s, fieldInfo := fi, resolverInfo := ri }) = _
    rw [applyCont_fired env (.contSingle d) s t (env.time d) (!env.ok d) _ rfl,
        if_neg (Nat.not_le.mpr ht)]
  · intro t ht
    show some (applyCont env (.contSingle d) s t
        { startOffset := now - s, fieldInfo := fi, resolverInfo := ri }) = _
    rw [applyCont_fired env (.contSingle d) s t (env.time d) (!env.ok d) _ rfl,
        if_pos ht]
    rfl

/-- Witness for C1: a deferred value rejecting at time 10 — unset record at
time 2, set record with the error flag at time 10. -/
theorem c1_single_deferred_tracking_witness :
    reportAt ⟨fun _ => 10, fun _ => false⟩ 0
        (decorateField (.ok (.deferred 3)) ⟨"T", "f"⟩ (mkCtx 0 0 []) 0 0) 2 =
      some { startOffset := 0, fieldInfo := ⟨"T", "f"⟩, resolverInfo := 0 } ∧
    reportAt ⟨fun _ => 10, fun _ => false⟩ 0
        (decorateField (.ok (.deferred 3)) ⟨"T", "f"⟩ (mkCtx 0 0 []) 0 0) 10 =
      some { startOffset := 0, fieldInfo := ⟨"T", "f"⟩, resolverInfo := 0,
             endOffset := some 10, error := true } :=
  ⟨(c1_single_deferred_tracking 3 ⟨"T", "f"⟩ 0 0 0 0 [] ⟨fun _ => 10, fun _ => false⟩).2.1
      2 (by decide),
   (c1_single_deferred_tracking 3 ⟨"T", "f"⟩ 0 0 0 0 [] ⟨fun _ => 10, fun _ => false⟩).2.2.1
      10 (by decide)⟩

/-- C3 counterexample: a sequence of three deferred values where the third
rejects at time 1 and the first two fulfil at times 10 and 20. The
`Promise.all` failure continuation fires at the first rejection, so at time
5 — before the two fulfilments have settled — endOffset is already set (to
offset 1) with error = true, contradicting "endOffset is set only after all
three deferred values have settled". -/
theorem c3_counterexample :
    reportAt ⟨fun d => if d == 0 then 10 else if d == 1 then 20 else 1, fun d => d != 2⟩ 0
      (decorateField (.ok (.arr [.deferred 0, .deferred 1, .deferred 2])) ⟨"T", "f"⟩
        (mkCtx 0 0 []) 0 0) 5
      = some { startOffset := 0, fieldInfo := ⟨"T", "f"⟩, resolverInfo := 0,
               endOffset := some 1, error := true } ∧
    (5 : Nat) < 10 ∧ (5 : Nat) < 20 :=
  ⟨rfl, by decide, by decide⟩

/-- C3 amended: for a sequence of three deferred values of which the first
two fulfil and the third rejects, the record ends with error = true, and
endOffset is set exactly from the rejection's settle time on — which is
after all three have settled whenever the rejection settles last, but may
precede the other settlements otherwise (Promise.all rejects at the first
rejection). -/
theorem c3_settle_all_amended (d1 d2 d3 : Nat) (fi : FieldInfo)
    (w s ri now : Nat) (calls : List ResolverReport) (env : SettleEnv)
    (ho1 : env.ok d1 = true) (ho2 : env.ok d2 = true) (ho3 : env.ok d3 = false) :
    decorateField (.ok (.arr [.deferred d1, .deferred d2, .deferred d3])) fi
        (mkCtx w s calls) ri now =
      { outcome := .ok (.arr [.deferred d1, .deferred d2, .deferred d3]),
        report := some { startOffset := now - s, fieldInfo := fi, resolverInfo := ri },
        appended := true, cont := .contAll [d1, d2, d3] } ∧
    (∀ t, t < env.time d3 →
      reportAt env s (decorateField (.ok (.arr [.deferred d1, .deferred d2, .deferred d3]))
          fi (mkCtx w s calls) ri now) t =
        some { startOffset := now - s, fieldInfo := fi, resolverInfo := ri }) ∧
    (∀ t, env.time d3 ≤ t →
      reportAt env s (decorateField (.ok (.arr [.deferred d1, .deferred d2, .deferred d3]))
          fi (mkCtx w s calls) ri now) t =
        some { startOffset := now - s, fieldInfo := fi, resolverInfo := ri,
               endOffset := some (env.time d3 - s), error := true }) := by
  have hfire : contFire env (.contAll [d1, d2, d3]) = some (env.time d3, true) := by
    simp [contFire, ho1, ho2, ho3, listMin]
  refine ⟨rfl, ?_, ?_⟩
  · intro t ht
    show some (applyCont env (.contAll [d1, d2, d3]) s t
        { startOffset := now - s, fieldInfo := fi, resolverInfo := ri }) = _
    rw [applyCont_fired env (.contAll [d1, d2, d3]) s t (env.time d3) true _ hfire,
        if_neg (Nat.not_le.mpr ht)]
  · intro t ht
    show some (applyCont env (.contAll [d1, d2, d3]) s t
        { startOffset := now - s, fieldInfo := fi, resolverInfo := ri }) = _
    rw [applyCont_fired env (.contAll [d1, d2, d3]) s t (env.time d3) true _ hfire,
        if_pos ht]
    rfl

/-- Witness for C3 amended: promises 0 and 1 fulfil at times 10 and 20,
promise 2 rejects at time 1; the record is untouched at time 0 and set with
the error flag from time 1 on. -/
theorem c3_settle_all_amended_witness :
    reportAt ⟨fun d => if d == 0 then 10 else if d == 1 then 20 else 1, fun d => d != 2⟩ 0
        (decorateField (.ok (.arr [.deferred 0, .deferred 1, .deferred 2])) ⟨"T", "f"⟩
          (mkCtx 0 0 []) 0 0) 0 =
      some { startOffset := 0, fieldInfo := ⟨"T", "f"⟩, resolverInfo := 0 } ∧
    reportAt ⟨fun d => if d == 0 then 10 else if d == 1 then 20 else 1, fun d => d != 2⟩ 0
        (decorateField (.ok (.arr [.deferred 0, .deferred 1, .deferred 2])) ⟨"T", "f"⟩
          (mkCtx 0 0 []) 0 0) 3 =
      some { startOffset := 0, fieldInfo := ⟨"T", "f"⟩, resolverInfo := 0,
             endOffset := some 1, error := true } :=
  ⟨(c3_settle_all_amended 0 1 2 ⟨"T", "f"⟩ 0 0 0 0 []
        ⟨fun d => if d == 0 then 10 else if d == 1 then 20 else 1, fun d => d != 2⟩
        rfl rfl rfl).2.1 0 (by decide),
   (c3_settle_all_amended 0 1 2 ⟨"T", "f"⟩ 0 0 0 0 []
        ⟨fun d => if d == 0 then 10 else if d == 1 then 20 else 1, fun d => d != 2⟩
        rfl rfl rfl).2.2 3 (by decide)⟩

/-- C2: under a live context, for every completion path with a well-behaved
result — synchronous throw, null, undefined, primitive, single deferred
value, array with or without deferred elements — there is a single fire time
from which the record permanently holds one final state with endOffset set
(endOffset is set exactly once whenever the result, including any deferred
tail, settles), and any record state observed with endOffset set is never
mutated again (src/Instrument.js lines 130-133 and 103-206). -/
theorem c2_endOffset_exactly_once (fn : Except JSErr JSValue) (fi : FieldInfo)
    (w s ri now : Nat) (calls : List ResolverReport) (env : SettleEnv)
    (hgood : goodResult fn = true) :
    (∃ ft r, (∀ t, ft ≤ t →
        reportAt env s (decorateField fn fi (mkCtx w s calls) ri now) t = some r) ∧
      r.endOffset.isSome = true) ∧
    (∀ t u r, t ≤ u →
      reportAt env s (decorateField fn fi (mkCtx w s calls) ri now) t = some r →
      r.endOffset.isSome = true →
      reportAt env s (decorateField fn fi (mkCtx w s calls) ri now) u = some r) := by
  cases fn with
  | error e =>
      exact reportAt_once env s _ _ rfl (Or.inl ⟨rfl, rfl⟩)
  | ok v =>
      cases v with
      | nullV =>
          exact reportAt_once env s _ _ rfl (Or.inl ⟨rfl, rfl⟩)
      | undefinedV =>
          exact reportAt_once env s _ _ rfl (Or.inl ⟨rfl, rfl⟩)
      | prim n =>
          exact reportAt_once env s _ _ rfl (Or.inl ⟨rfl, rfl⟩)
      | deferred d =>
          exact reportAt_once env s _ _ rfl (Or.inr ⟨rfl, env.time d, !env.ok d, rfl⟩)
      | exotic e =>
          simp [goodResult, noExoticTop] at hgood
      | arr vs =>
          have hall : vs.all notExotic = true := by
            simpa [goodResult, noExoticTop] using hgood
          obtain ⟨ds, hds⟩ := collectThenables_ok_of_all_notExotic vs hall
          cases ds with
          | nil =>
              have hsr : decorateField (.ok (.arr vs)) fi (mkCtx w s calls) ri now =
                  { outcome := .ok (.arr vs),
                    report := some { startOffset := now - s, fieldInfo := fi,
                                     resolverInfo := ri, endOffset := some (now - s) },
                    appended := true, cont := .contNone } := by
                simp [decorateField, mkCtx, mkDdCtx, classifyResult, hds, Except.map]
              rw [hsr]
              exact reportAt_once env s _ _ rfl (Or.inl ⟨rfl, rfl⟩)
          | cons d0 rest =>
              have hsr : decorateField (.ok (.arr vs)) fi (mkCtx w s calls) ri now =
                  { outcome := .ok (.arr vs),
                    report := some { startOffset := now - s, fieldInfo := fi,
                                     resolverInfo := ri },
                    appended := true, cont := .contAll (d0 :: rest) } := by
                simp [decorateField, mkCtx, mkDdCtx, classifyResult, hds, Except.map]
              rw [hsr]
              obtain ⟨ft, isErr, hf⟩ := contFire_contAll_isSome env (d0 :: rest)
              exact reportAt_once env s _ _ rfl (Or.inr ⟨rfl, ft, isErr, hf⟩)

/-- Witness for C2: a single deferred value fulfilling at time 4. -/
theorem c2_endOffset_exactly_once_witness :
    goodResult (.ok (.deferred 0)) = true ∧
    ((∃ ft r, (∀ t, ft ≤ t →
        reportAt ⟨fun _ => 4, fun _ => true⟩ 0
          (decorateField (.ok (.deferred 0)) ⟨"T", "f"⟩ (mkCtx 0 0 []) 0 0) t = some r) ∧
      r.endOffset.isSome = true) ∧
    (∀ t u r, t ≤ u →
      reportAt ⟨fun _ => 4, fun _ => true⟩ 0
        (decorateField (.ok (.deferred 0)) ⟨"T", "f"⟩ (mkCtx 0 0 []) 0 0) t = some r →
      r.endOffset.isSome = true →
      reportAt ⟨fun _ => 4, fun _ => true⟩ 0
        (decorateField (.ok (.deferred 0)) ⟨"T", "f"⟩ (mkCtx 0 0 []) 0 0) u = some r)) :=
  ⟨rfl, c2_endOffset_exactly_once (.ok (.deferred 0)) ⟨"T", "f"⟩ 0 0 0 0 []
      ⟨fun _ => 4, fun _ => true⟩ rfl⟩

end GraphqlDog
